import Mathlib

/-!
Verification of the maze generator `mazes.py`.

The program is shallowly embedded: a cell is its `(row, column)` position,
the per-cell Python dictionaries `self.links` are combined into one global
association list kept in dictionary insertion order, and the randomized
algorithms take an explicit stream of pseudo-random draws plus, where the
source loop need not terminate, an explicit fuel.
-/

set_option maxHeartbeats 1000000

namespace Mazes

/-- A cell of the maze, identified by its `(row, column)` position as set in
`Cell.__init__`.  Each grid owns exactly one cell per position, so the
coordinate pair faithfully stands for the cell object. -/
abbrev Coord := Nat × Nat

/-- The combined link tables of all cells.  An entry `((a, b), v)` means that
cell `a`'s dictionary `self.links` maps cell `b` to the boolean `v`.  The list
is kept in Python dictionary insertion order: a write to an existing key
updates it in place, a write to a fresh key appends at the end. -/
abbrev Links := List ((Coord × Coord) × Bool)

/-- A single dictionary write `a.links[b] = v`, with Python dict semantics:
update in place when the key is present, append otherwise. -/
def setLink : Links → Coord × Coord → Bool → Links
  | [], key, v => [(key, v)]
  | e :: rest, key, v =>
    if e.1 = key then (key, v) :: rest else e :: setLink rest key v

/-- Reading `a.links[b]`; `none` models a Python `KeyError` (the key was never
written). -/
def lookupLink : Links → Coord × Coord → Option Bool
  | [], _ => none
  | e :: rest, key => if e.1 = key then some e.2 else lookupLink rest key

/-- `cell.north`, as wired by `Grid.connect_cells`: present for every cell not
in row 0 (the source guard is `i != 0`). -/
def north (p : Coord) : Option Coord :=
  if p.1 ≠ 0 then some (p.1 - 1, p.2) else none

/-- `cell.south`: present unless `i == num_rows - 1`. -/
def south (rows : Nat) (p : Coord) : Option Coord :=
  if p.1 ≠ rows - 1 then some (p.1 + 1, p.2) else none

/-- `cell.east`: present unless `j == num_columns - 1`. -/
def east (cols : Nat) (p : Coord) : Option Coord :=
  if p.2 ≠ cols - 1 then some (p.1, p.2 + 1) else none

/-- `cell.west`: present unless `j == 0`. -/
def west (p : Coord) : Option Coord :=
  if p.2 ≠ 0 then some (p.1, p.2 - 1) else none

/-- `Cell.link(cell)` with the default `bidirectional=True`:
`self.links[cell] = True` followed by `cell.links[self] = True`. -/
def linkCells (a b : Coord) (s : Links) : Links :=
  setLink (setLink s (a, b) true) (b, a) true

/-- `Cell.unlink(cell)` with the default `bidirectional=True`: both entries are
set to `False`, never removed (the `del` in the source is commented out). -/
def unlinkCells (a b : Coord) (s : Links) : Links :=
  setLink (setLink s (a, b) false) (b, a) false

/-- The oriented dictionary writes performed for one cell by
`Grid.connect_cells` and, with the same guards and order, by
`Grid.unlink_all`: south, north, east, west, each bidirectional. -/
def cellWrites (rows cols : Nat) (p : Coord) : List (Coord × Coord) :=
  (if p.1 ≠ rows - 1 then [(p, (p.1 + 1, p.2)), ((p.1 + 1, p.2), p)] else []) ++
  (if p.1 ≠ 0 then [(p, (p.1 - 1, p.2)), ((p.1 - 1, p.2), p)] else []) ++
  (if p.2 ≠ cols - 1 then [(p, (p.1, p.2 + 1)), ((p.1, p.2 + 1), p)] else []) ++
  (if p.2 ≠ 0 then [(p, (p.1, p.2 - 1)), ((p.1, p.2 - 1), p)] else [])

/-- Row-major list of all cells, as visited by the nested `for` loops of
`Grid.create_cells`, `connect_cells` and `unlink_all`. -/
def cellList (rows cols : Nat) : List Coord :=
  (List.range rows).flatMap (fun i => (List.range cols).map (fun j => (i, j)))

/-- One iteration of the `connect_cells` (`v = true`) or `unlink_all`
(`v = false`) body for a single cell. -/
def touchCell (v : Bool) (rows cols : Nat) (s : Links) (p : Coord) : Links :=
  (cellWrites rows cols p).foldl (fun s key => setLink s key v) s

/-- The full double loop of `connect_cells` / `unlink_all`. -/
def touchAll (v : Bool) (rows cols : Nat) (s : Links) : Links :=
  (cellList rows cols).foldl (touchCell v rows cols) s

/-- The link state of a freshly constructed `Grid(num_rows, num_columns)`:
all dictionaries start empty and `connect_cells` links every geographically
adjacent pair. -/
def initialLinks (rows cols : Nat) : Links := touchAll true rows cols []

/-- `Grid.unlink_all()`. -/
def unlinkAll (rows cols : Nat) (s : Links) : Links := touchAll false rows cols s

/-- Geographic adjacency of two in-bounds cells of a `rows × cols` grid. -/
def Adjacent (rows cols : Nat) (p q : Coord) : Prop :=
  p.1 < rows ∧ p.2 < cols ∧ q.1 < rows ∧ q.2 < cols ∧
    ((p.1 = q.1 ∧ (p.2 + 1 = q.2 ∨ q.2 + 1 = p.2)) ∨
     (p.2 = q.2 ∧ (p.1 + 1 = q.1 ∨ q.1 + 1 = p.1)))

instance (rows cols : Nat) (p q : Coord) : Decidable (Adjacent rows cols p q) := by
  unfold Adjacent; infer_instance

theorem lookupLink_setLink (s : Links) (key key2 : Coord × Coord) (v : Bool) :
    lookupLink (setLink s key v) key2 =
      if key2 = key then some v else lookupLink s key2 := by
  induction s with
  | nil =>
    simp only [setLink, lookupLink]
    by_cases h : key2 = key
    · simp [h]
    · rw [if_neg (fun hh => h hh.symm), if_neg h]
  | cons e rest ih =>
    simp only [setLink]
    by_cases he : e.1 = key
    · rw [if_pos he]
      simp only [lookupLink]
      by_cases h : key2 = key
      · rw [if_pos h.symm, if_pos h]
      · rw [if_neg (fun hh => h hh.symm), if_neg h,
          if_neg (fun hh => h (he ▸ hh).symm)]
    · rw [if_neg he]
      simp only [lookupLink, ih]
      by_cases hk : e.1 = key2
      · have : ¬ key2 = key := fun hh => he (hk.trans hh)
        rw [if_pos hk, if_neg this, if_pos hk]
      · rw [if_neg hk, if_neg hk]

theorem setLink_noop {s : Links} {key : Coord × Coord} {v : Bool}
    (h : lookupLink s key = some v) : setLink s key v = s := by
  induction s with
  | nil => simp [lookupLink] at h
  | cons e rest ih =>
    obtain ⟨ek, ev⟩ := e
    simp only [lookupLink] at h
    simp only [setLink]
    by_cases he : (ek, ev).1 = key
    · rw [if_pos he] at h
      rw [if_pos he]
      simp only at he
      obtain rfl := he
      simp only [Option.some.injEq] at h
      rw [h]
    · rw [if_neg he] at h
      rw [if_neg he, ih h]

theorem lookupLink_foldl_setLink (v : Bool) (l : List (Coord × Coord)) :
    ∀ (s : Links) (key : Coord × Coord),
      lookupLink (l.foldl (fun s k => setLink s k v) s) key =
        if key ∈ l then some v else lookupLink s key := by
  induction l with
  | nil => intro s key; simp
  | cons k0 rest ih =>
    intro s key
    simp only [List.foldl_cons]
    rw [ih]
    by_cases hm : key ∈ rest
    · simp [hm]
    · rw [if_neg hm, lookupLink_setLink]
      by_cases he : key = k0
      · simp [he]
      · simp [he, hm]

theorem foldl_setLink_noop (v : Bool) (l : List (Coord × Coord)) :
    ∀ s : Links, (∀ k ∈ l, lookupLink s k = some v) →
      l.foldl (fun s k => setLink s k v) s = s := by
  induction l with
  | nil => intro s _; rfl
  | cons k0 rest ih =>
    intro s h
    simp only [List.foldl_cons]
    rw [setLink_noop (h k0 (by simp))]
    exact ih s (fun k hk => h k (by simp [hk]))

theorem foldl_flatMap {α β γ : Type} (g : α → List β) (f : γ → β → γ) :
    ∀ (l : List α) (s : γ),
      (l.flatMap g).foldl f s = l.foldl (fun s x => (g x).foldl f s) s := by
  intro l
  induction l with
  | nil => intro s; rfl
  | cons x rest ih =>
    intro s
    simp only [List.flatMap_cons, List.foldl_append, List.foldl_cons]
    exact ih _

/-- All oriented dictionary writes of one full `connect_cells` / `unlink_all`
pass over the grid. -/
def allWrites (rows cols : Nat) : List (Coord × Coord) :=
  (cellList rows cols).flatMap (cellWrites rows cols)

theorem touchAll_eq_foldl (v : Bool) (rows cols : Nat) (s : Links) :
    touchAll v rows cols s =
      (allWrites rows cols).foldl (fun s k => setLink s k v) s := by
  unfold touchAll allWrites touchCell
  rw [foldl_flatMap]

theorem mem_cellList {rows cols : Nat} {p : Coord} :
    p ∈ cellList rows cols ↔ p.1 < rows ∧ p.2 < cols := by
  obtain ⟨i, j⟩ := p
  simp only [cellList, List.mem_flatMap, List.mem_map, List.mem_range]
  constructor
  · rintro ⟨a, ha, b, hb, hab⟩
    obtain ⟨rfl, rfl⟩ := Prod.mk.injEq .. ▸ hab
    exact ⟨ha, hb⟩
  · rintro ⟨hi, hj⟩
    exact ⟨i, hi, j, hj, rfl⟩

theorem mem_if_list {α : Type} {c : Prop} [Decidable c] {l : List α} {x : α} :
    x ∈ (if c then l else []) ↔ c ∧ x ∈ l := by
  split_ifs with h <;> simp [h]

theorem mem_allWrites {rows cols : Nat} {k : Coord × Coord} :
    k ∈ allWrites rows cols ↔ Adjacent rows cols k.1 k.2 := by
  obtain ⟨⟨a1, a2⟩, b1, b2⟩ := k
  constructor
  · intro hk
    simp only [allWrites, List.mem_flatMap] at hk
    obtain ⟨p, hp, hw⟩ := hk
    obtain ⟨p1, p2⟩ := p
    rw [mem_cellList] at hp
    simp only [cellWrites, List.mem_append, mem_if_list, List.mem_cons,
      List.not_mem_nil, or_false, Prod.mk.injEq] at hw
    unfold Adjacent
    obtain ⟨hp1, hp2⟩ := hp
    dsimp only at hp1 hp2 hw ⊢
    omega
  · intro ha
    unfold Adjacent at ha
    obtain ⟨h1, h2, h3, h4, hd⟩ := ha
    simp only [allWrites, List.mem_flatMap]
    refine ⟨(a1, a2), mem_cellList.mpr ⟨h1, h2⟩, ?_⟩
    simp only [cellWrites, List.mem_append, mem_if_list, List.mem_cons,
      List.not_mem_nil, or_false, Prod.mk.injEq]
    dsimp only at h1 h2 h3 h4 hd ⊢
    simp only [true_and, and_true]
    rcases hd with ⟨he, hj | hj⟩ | ⟨he, hi | hi⟩
    · exact Or.inl (Or.inr ⟨by omega, Or.inl (by omega)⟩)
    · exact Or.inr ⟨by omega, Or.inl (by omega)⟩
    · exact Or.inl (Or.inl (Or.inl ⟨by omega, Or.inl (by omega)⟩))
    · exact Or.inl (Or.inl (Or.inr ⟨by omega, Or.inl (by omega)⟩))

theorem lookupLink_touchAll (v : Bool) (rows cols : Nat) (s : Links)
    (k : Coord × Coord) :
    lookupLink (touchAll v rows cols s) k =
      if Adjacent rows cols k.1 k.2 then some v else lookupLink s k := by
  rw [touchAll_eq_foldl, lookupLink_foldl_setLink]
  by_cases h : Adjacent rows cols k.1 k.2
  · rw [if_pos (mem_allWrites.mpr h), if_pos h]
  · rw [if_neg (fun hm => h (mem_allWrites.mp hm)), if_neg h]

theorem lookupLink_initialLinks (rows cols : Nat) (k : Coord × Coord) :
    lookupLink (initialLinks rows cols) k =
      if Adjacent rows cols k.1 k.2 then some true else none := by
  unfold initialLinks
  rw [lookupLink_touchAll]
  rfl

theorem lookupLink_unlinkAll_initial (rows cols : Nat) (k : Coord × Coord) :
    lookupLink (unlinkAll rows cols (initialLinks rows cols)) k =
      if Adjacent rows cols k.1 k.2 then some false else none := by
  unfold unlinkAll
  rw [lookupLink_touchAll, lookupLink_initialLinks]
  by_cases h : Adjacent rows cols k.1 k.2 <;> simp [h]

theorem lookupLink_initialLinks2 (rows cols : Nat) (p q : Coord) :
    lookupLink (initialLinks rows cols) (p, q) =
      if Adjacent rows cols p q then some true else none :=
  lookupLink_initialLinks rows cols (p, q)

theorem lookupLink_unlinkAll_initial2 (rows cols : Nat) (p q : Coord) :
    lookupLink (unlinkAll rows cols (initialLinks rows cols)) (p, q) =
      if Adjacent rows cols p q then some false else none :=
  lookupLink_unlinkAll_initial rows cols (p, q)

/-- Claim C6: `unlink_all()` is idempotent — for a freshly constructed grid,
the link-table state after calling it twice equals, as a table, the state
after calling it once — and that state records link state `False` for every
geographically adjacent pair. -/
theorem unlink_all_idempotent (rows cols : Nat) (_hr : 0 < rows) (_hc : 0 < cols) :
    unlinkAll rows cols (unlinkAll rows cols (initialLinks rows cols)) =
        unlinkAll rows cols (initialLinks rows cols) ∧
      ∀ p q : Coord, Adjacent rows cols p q →
        lookupLink (unlinkAll rows cols (initialLinks rows cols)) (p, q) =
          some false := by
  refine ⟨?_, ?_⟩
  · conv_lhs => rw [unlinkAll, touchAll_eq_foldl]
    apply foldl_setLink_noop
    intro k hk
    rw [lookupLink_unlinkAll_initial, if_pos (mem_allWrites.mp hk)]
  · intro p q hpq
    rw [lookupLink_unlinkAll_initial2, if_pos hpq]

/-- Witness for claim C6 at a concrete 2 × 3 grid. -/
theorem unlink_all_idempotent_witness :
    (0 : Nat) < 2 ∧ (0 : Nat) < 3 ∧
      (unlinkAll 2 3 (unlinkAll 2 3 (initialLinks 2 3)) =
          unlinkAll 2 3 (initialLinks 2 3) ∧
        ∀ p q : Coord, Adjacent 2 3 p q →
          lookupLink (unlinkAll 2 3 (initialLinks 2 3)) (p, q) = some false) :=
  ⟨by decide, by decide, unlink_all_idempotent 2 3 (by decide) (by decide)⟩

/-- A link / unlink call a client can perform, always with the default
`bidirectional=True`, which is what every call site in the source uses. -/
inductive LOp where
  | link : Coord → Coord → LOp
  | unlink : Coord → Coord → LOp

/-- Execute one `Cell.link` / `Cell.unlink` call. -/
def applyLOp (s : Links) : LOp → Links
  | .link a b => linkCells a b s
  | .unlink a b => unlinkCells a b s

/-- Execute a sequence of link / unlink calls, oldest first. -/
def applyLOps (s : Links) (ops : List LOp) : Links := ops.foldl applyLOp s

theorem lookupLink_pairSet (s : Links) (a b : Coord) (v : Bool)
    (k : Coord × Coord) :
    lookupLink (setLink (setLink s (a, b) v) (b, a) v) k =
      if k = (a, b) ∨ k = (b, a) then some v else lookupLink s k := by
  rw [lookupLink_setLink, lookupLink_setLink]
  by_cases h1 : k = (b, a) <;> by_cases h2 : k = (a, b) <;> simp [h1, h2]

theorem lookupLink_linkCells (s : Links) (a b : Coord) (k : Coord × Coord) :
    lookupLink (linkCells a b s) k =
      if k = (a, b) ∨ k = (b, a) then some true else lookupLink s k :=
  lookupLink_pairSet s a b true k

theorem lookupLink_unlinkCells (s : Links) (a b : Coord) (k : Coord × Coord) :
    lookupLink (unlinkCells a b s) k =
      if k = (a, b) ∨ k = (b, a) then some false else lookupLink s k :=
  lookupLink_pairSet s a b false k

/-- Symmetry of a whole link table: both orientations of every pair agree. -/
def SymmState (s : Links) : Prop :=
  ∀ a b : Coord, lookupLink s (a, b) = lookupLink s (b, a)

theorem adjacent_symm {rows cols : Nat} {p q : Coord}
    (h : Adjacent rows cols p q) : Adjacent rows cols q p := by
  obtain ⟨p1, p2⟩ := p
  obtain ⟨q1, q2⟩ := q
  unfold Adjacent at h ⊢
  dsimp only at h ⊢
  omega

theorem symmState_initialLinks (rows cols : Nat) :
    SymmState (initialLinks rows cols) := by
  intro a b
  rw [lookupLink_initialLinks2, lookupLink_initialLinks2]
  by_cases h : Adjacent rows cols a b
  · rw [if_pos h, if_pos (adjacent_symm h)]
  · rw [if_neg h, if_neg (fun h2 => h (adjacent_symm h2))]

theorem symmState_pairSet {s : Links} (h : SymmState s) (a b : Coord)
    (v : Bool) : SymmState (setLink (setLink s (a, b) v) (b, a) v) := by
  intro x y
  rw [lookupLink_pairSet, lookupLink_pairSet]
  by_cases h1 : (x, y) = (a, b) ∨ (x, y) = (b, a)
  · have h2 : (y, x) = (a, b) ∨ (y, x) = (b, a) := by
      simp only [Prod.mk.injEq] at h1 ⊢
      tauto
    rw [if_pos h1, if_pos h2]
  · have h2 : ¬ ((y, x) = (a, b) ∨ (y, x) = (b, a)) := by
      simp only [Prod.mk.injEq] at h1 ⊢
      tauto
    rw [if_neg h1, if_neg h2]
    exact h x y

theorem symmState_applyLOp {s : Links} (h : SymmState s) (op : LOp) :
    SymmState (applyLOp s op) := by
  cases op with
  | link a b => exact symmState_pairSet h a b true
  | unlink a b => exact symmState_pairSet h a b false

theorem symmState_applyLOps {s : Links} (h : SymmState s) (ops : List LOp) :
    SymmState (applyLOps s ops) := by
  induction ops generalizing s with
  | nil => exact h
  | cons op rest ih => exact ih (symmState_applyLOp h op)

/-- Claim C4: after any sequence of (bidirectional) `link` / `unlink` calls on
a freshly constructed grid, the link state is symmetric: cell `a`'s table
entry for `b` and cell `b`'s table entry for `a` are both absent or both
present with the same boolean, so `a.is_linked(b)` and `b.is_linked(a)` agree
(both raise, or both return the same value). -/
theorem link_state_symmetric (rows cols : Nat) (ops : List LOp) (a b : Coord) :
    lookupLink (applyLOps (initialLinks rows cols) ops) (a, b) =
      lookupLink (applyLOps (initialLinks rows cols) ops) (b, a) :=
  symmState_applyLOps (symmState_initialLinks rows cols) ops a b

/-- Does a bidirectional link / unlink call write the dictionary entry `k`? -/
def OpTouches (k : Coord × Coord) : LOp → Prop
  | .link a b => k = (a, b) ∨ k = (b, a)
  | .unlink a b => k = (a, b) ∨ k = (b, a)

theorem lookupLink_applyLOps_none (ops : List LOp) :
    ∀ (s : Links) (k : Coord × Coord),
      lookupLink (applyLOps s ops) k = none ↔
        lookupLink s k = none ∧ ∀ op ∈ ops, ¬ OpTouches k op := by
  induction ops with
  | nil => intro s k; simp [applyLOps]
  | cons op rest ih =>
    intro s k
    rw [show applyLOps s (op :: rest) = applyLOps (applyLOp s op) rest from rfl,
      ih]
    have hstep : lookupLink (applyLOp s op) k = none ↔
        ¬ OpTouches k op ∧ lookupLink s k = none := by
      cases op with
      | link a b =>
        simp only [applyLOp, OpTouches, lookupLink_linkCells]
        by_cases ht : k = (a, b) ∨ k = (b, a) <;> simp [ht]
      | unlink a b =>
        simp only [applyLOp, OpTouches, lookupLink_unlinkCells]
        by_cases ht : k = (a, b) ∨ k = (b, a) <;> simp [ht]
    rw [hstep]
    constructor
    · rintro ⟨⟨hop, hnone⟩, hrest⟩
      refine ⟨hnone, ?_⟩
      intro op2 hop2
      rcases List.mem_cons.mp hop2 with rfl | hmem
      · exact hop
      · exact hrest op2 hmem
    · rintro ⟨hnone, hall⟩
      exact ⟨⟨hall op (by simp), hnone⟩, fun op2 hmem => hall op2 (by simp [hmem])⟩

/-- Claim C5: `is_linked(b)` on cell `a` raises a `KeyError` (modelled as
`none`) exactly when `b` was never passed to `link` or `unlink` on `a` —
neither by `connect_cells` at construction (which links all adjacent pairs)
nor by any later call — and after `unlink(a, b)` the entry persists with value
`False`, so a subsequent `is_linked` returns `False` instead of raising. -/
theorem is_linked_raises_iff (rows cols : Nat) (ops : List LOp) (a b : Coord) :
    (lookupLink (applyLOps (initialLinks rows cols) ops) (a, b) = none ↔
        ¬ Adjacent rows cols a b ∧ ∀ op ∈ ops, ¬ OpTouches (a, b) op) ∧
      lookupLink (applyLOps (initialLinks rows cols) (ops ++ [LOp.unlink a b]))
          (a, b) = some false := by
  constructor
  · rw [lookupLink_applyLOps_none, lookupLink_initialLinks2]
    by_cases h : Adjacent rows cols a b <;> simp [h]
  · rw [show applyLOps (initialLinks rows cols) (ops ++ [LOp.unlink a b]) =
        applyLOp (applyLOps (initialLinks rows cols) ops) (LOp.unlink a b) by
      unfold applyLOps
      rw [List.foldl_append]
      rfl]
    simp only [applyLOp]
    rw [lookupLink_unlinkCells]
    simp

/-- The keys of cell `a`'s dictionary `self.links`, in insertion order. -/
def cellKeys (s : Links) (a : Coord) : List Coord :=
  (s.filter (fun e => e.1.1 == a)).map (fun e => e.1.2)

/-- Python's `==` between a `Cell` and the boolean `True`: `Cell` defines no
`__eq__`, so the comparison falls back to identity and is always false. -/
def keyEqTrue (_ : Coord) : Bool := false

/-- `Cell.link_count`: the loop `for item in self.links` iterates over the
KEYS of the dictionary (cells, not booleans) and increments only when
`item == True`. -/
def link_count (s : Links) (a : Coord) : Nat :=
  ((cellKeys s a).filter keyEqTrue).length

/-- The number the specification ascribes to `link_count()`: entries of the
cell's link table whose stored link state is `True`. -/
def trueLinkCount (s : Links) (a : Coord) : Nat :=
  (s.filter (fun e => e.1.1 == a && e.2)).length

theorem filter_keyEqTrue_nil (l : List Coord) : l.filter keyEqTrue = [] := by
  induction l with
  | nil => rfl
  | cons x rest ih => simp [List.filter, keyEqTrue, ih]

/-- Claim C2 is a code bug: on a freshly built 1 × 2 grid, cell (0,0) has
exactly one entry with link state `True` in its table, yet `link_count()`
returns 0 — and in fact `link_count` returns 0 on every cell of every state,
since the loop compares dictionary keys (cells) to `True`, a comparison that
is never true in Python. -/
theorem link_count_is_broken :
    link_count (initialLinks 1 2) (0, 0) = 0 ∧
      trueLinkCount (initialLinks 1 2) (0, 0) = 1 ∧
      ∀ (s : Links) (a : Coord), link_count s a = 0 := by
  refine ⟨?_, ?_, ?_⟩
  · decide
  · decide
  · intro s a
    unfold link_count
    rw [filter_keyEqTrue_nil]
    rfl

/-- `Grid.create_cells`: `self.grid` is a list of rows, each a list of cells. -/
def gridRows (rows cols : Nat) : List (List Coord) :=
  (List.range rows).map (fun i => (List.range cols).map (fun j => (i, j)))

/-- `Grid.deadends` iterates `for item in self.grid`, so `item` is a ROW (a
Python list), and evaluates `item.link_count`; a Python list has no attribute
`link_count`, so the first iteration raises `AttributeError` (modelled as
`Except.error`).  Only a grid whose row list is empty — impossible, since the
constructor asserts `num_rows > 0` — would complete and return `[]`. -/
def deadends (rows cols : Nat) : Except String (List Coord) :=
  match gridRows rows cols with
  | [] => .ok []
  | _ :: _ => .error "AttributeError"

/-- Claim C3 is a code bug: `deadends()` never returns the deadend cells — on
a 2 × 2 grid (and any other constructed grid) it raises `AttributeError`,
because it iterates over rows rather than cells and reads the bound method
`link_count` instead of calling it.  For contrast, on the 1 × 2 grid the
cells whose tables hold exactly one `True` entry are (0,0) and (0,1), but
`deadends` faults there as well. -/
theorem deadends_raises :
    deadends 2 2 = .error "AttributeError" ∧
      deadends 1 2 = .error "AttributeError" ∧
      (cellList 1 2).filter (fun c => trueLinkCount (initialLinks 1 2) c == 1) =
        [(0, 0), (0, 1)] :=
  ⟨rfl, rfl, by decide⟩

/-- The start-coordinate resolution performed by
`ColorizedMarkup.colorize_dijkstra`: the Python test `if not start_row` is
true both for `None` and for `0` (zero is falsy), so both are replaced by the
grid's centre coordinate `dim // 2`. -/
def resolveStart (dim : Nat) (arg : Option Nat) : Nat :=
  match arg with
  | none => dim / 2
  | some 0 => dim / 2
  | some r => r

/-- Claim C10 counterexample: on a grid with a single row,
`colorize_dijkstra(0, c)` resolves the start row to `1 // 2 = 0`, so the
Dijkstra root IS chosen in row 0, contradicting the claim that the root can
never lie in row 0 through this interface. -/
theorem resolveStart_row_zero_on_one_row_grid : resolveStart 1 (some 0) = 0 :=
  rfl

/-- Claim C10 amended: `colorize_dijkstra` treats a start coordinate of 0 the
same as an omitted one — both resolve to the centre coordinate `dim // 2` —
and on grids with at least two rows and two columns the resolved root is
consequently never in row 0 or column 0. -/
theorem resolveStart_zero_is_center (rows cols : Nat) (r c : Option Nat)
    (hr : 2 ≤ rows) (hc : 2 ≤ cols) :
    resolveStart rows (some 0) = rows / 2 ∧
      resolveStart rows none = rows / 2 ∧
      resolveStart cols (some 0) = cols / 2 ∧
      resolveStart cols none = cols / 2 ∧
      resolveStart rows r ≠ 0 ∧ resolveStart cols c ≠ 0 := by
  refine ⟨rfl, rfl, rfl, rfl, ?_, ?_⟩
  · match r with
    | none => show rows / 2 ≠ 0; omega
    | some 0 => show rows / 2 ≠ 0; omega
    | some (n + 1) => simp [resolveStart]
  · match c with
    | none => show cols / 2 ≠ 0; omega
    | some 0 => show cols / 2 ≠ 0; omega
    | some (n + 1) => simp [resolveStart]

/-- Witness for the amended claim C10 on a 4 × 5 grid with arguments
`(0, 3)`. -/
theorem resolveStart_zero_is_center_witness :
    resolveStart 4 (some 0) = 4 / 2 ∧
      resolveStart 4 none = 4 / 2 ∧
      resolveStart 5 (some 0) = 5 / 2 ∧
      resolveStart 5 none = 5 / 2 ∧
      resolveStart 4 (some 0) ≠ 0 ∧ resolveStart 5 (some 3) ≠ 0 :=
  resolveStart_zero_is_center 4 5 (some 0) (some 3) (by decide) (by decide)

/-- The colour channel of a `ColorizedMarkup` (`channel in 'RGB'`). -/
inductive Channel where
  | R
  | G
  | B

/-- `Markup.__getitem__`: `self.marks.get(cell, self.default)`.  Numeric mark
values are modelled as rationals; Python computes the same expressions on
floats, and the theorems below only exercise exactly representable values. -/
def markupGet (marks : List (Coord × ℚ)) (default : ℚ) (c : Coord) : ℚ :=
  match marks.find? (fun e => e.1 == c) with
  | some e => e.2
  | none => default

/-- `Markup.max()`: `max(self.marks.keys(), key=self.__getitem__)` — the first
key of maximal value in insertion order (`max` replaces the current best only
on a strictly greater key), or a `ValueError` (`none`) when the mapping is
empty. -/
def markupMaxKey (marks : List (Coord × ℚ)) (default : ℚ) : Option Coord :=
  match marks with
  | [] => none
  | e :: rest =>
    some ((rest.map (fun x => x.1)).foldl
      (fun best c =>
        if markupGet marks default best < markupGet marks default c then c
        else best)
      e.1)

/-- `ColorizedMarkup.intensity_colorize(markup)`: find the maximal markup
value, then colour every grid cell from
`intensity = (max_value - cell_value) / max_value`.  The division is
unguarded: with a nonempty grid (the constructor guarantees one) and
`max_value == 0` the first loop iteration raises `ZeroDivisionError`; an
empty markup already makes `max()` raise `ValueError`.  `round` is exact
rational rounding; Python rounds the corresponding floats half-to-even, and
no theorem below evaluates at a half. -/
def intensity_colorize (rows cols : Nat) (ch : Channel)
    (marks : List (Coord × ℚ)) (default : ℚ) :
    Except String (List (Coord × (ℤ × ℤ × ℤ))) :=
  match markupMaxKey marks default with
  | none => .error "ValueError"
  | some m =>
    let maxValue := markupGet marks default m
    if maxValue = 0 then .error "ZeroDivisionError"
    else
      .ok ((cellList rows cols).map (fun c =>
        let cellValue := markupGet marks default c
        let intensity : ℚ := (maxValue - cellValue) / maxValue
        let dark : ℤ := round (255 * intensity)
        let bright : ℤ := round (127 * intensity) + 128
        match ch with
        | .R => (c, (bright, dark, dark))
        | .G => (c, (dark, bright, dark))
        | .B => (c, (dark, dark, bright))))

/-- Claim C9 is a code bug: on a markup in which every cell shares the one
distance value 0 (here: the Dijkstra markup of a 1 × 1 grid, whose only cell
is at distance 0), `intensity_colorize` raises an unguarded
`ZeroDivisionError` instead of producing the guarded fallback the
specification requires. -/
theorem intensity_colorize_div_zero :
    intensity_colorize 1 1 Channel.R [((0, 0), 0)] 0 =
      .error "ZeroDivisionError" := by
  rfl

/-- One iteration of the `binary_tree` double loop at cell `p`: the top-right
cell (`i == 0 and j == num_columns - 1`) only prints; other top-row cells link
east; other right-column cells link north; interior cells draw
`r = random.randint(0, 1)` (the `k`-th draw, modelled as `rnd k % 2`) and
unlink east when `r == 0`, unlink north when `r == 1`.  The grid starts fully
linked; `binary_tree` never calls `unlink_all`. -/
def btStep (cols : Nat) (rnd : Nat → Nat) (sk : Links × Nat) (p : Coord) :
    Links × Nat :=
  let s := sk.1
  let k := sk.2
  if p.1 = 0 ∧ p.2 = cols - 1 then (s, k)
  else if p.1 = 0 then (linkCells p (p.1, p.2 + 1) s, k)
  else if p.2 = cols - 1 then (linkCells p (p.1 - 1, p.2) s, k)
  else
    let r := rnd k % 2
    let s1 := if r = 0 then unlinkCells p (p.1, p.2 + 1) s else s
    let s2 := if r = 1 then unlinkCells p (p.1 - 1, p.2) s1 else s1
    (s2, k + 1)

/-- The cell order of `binary_tree`: `i` from `num_rows - 1` down to 0, `j`
ascending within each row. -/
def btCells (rows cols : Nat) : List Coord :=
  ((List.range rows).reverse).flatMap
    (fun i => (List.range cols).map (fun j => (i, j)))

/-- `binary_tree(grid)` on a freshly constructed grid, where `rnd` supplies
the successive `random.randint(0, 1)` draws. -/
def binaryTree (rows cols : Nat) (rnd : Nat → Nat) : Links :=
  ((btCells rows cols).foldl (btStep cols rnd) (initialLinks rows cols, 0)).1

/-- Claim C7 counterexample: running `binary_tree` on a 4 × 4 grid with every
draw equal to 0, the top-right cell (0,3) holds True links to its south
neighbour (1,3) and its west neighbour (0,2) — the claim says it has zero
True entries — and moreover (0,0) is also linked south (the claim says top-row
cells link only east) and (1,3) is also linked south (the claim says
right-column cells link only north). -/
theorem binary_tree_4x4_counterexample :
    lookupLink (binaryTree 4 4 (fun _ => 0)) ((0, 3), (1, 3)) = some true ∧
      lookupLink (binaryTree 4 4 (fun _ => 0)) ((0, 3), (0, 2)) = some true ∧
      lookupLink (binaryTree 4 4 (fun _ => 0)) ((0, 0), (1, 0)) = some true ∧
      lookupLink (binaryTree 4 4 (fun _ => 0)) ((1, 3), (2, 3)) = some true := by
  decide

/-- The boundary state of a 4 × 4 grid that `binary_tree` establishes and
preserves, for every draw stream: the top-right cell's table holds exactly
its two construction entries, both True, and the top-row east links and
right-column north links are True. -/
def BT4Inv (s : Links) : Prop :=
  (∀ q : Coord, lookupLink s ((0, 3), q) =
      if q = (1, 3) ∨ q = (0, 2) then some true else none) ∧
    (∀ j : Nat, j < 3 → lookupLink s ((0, j), (0, j + 1)) = some true) ∧
    (∀ i : Nat, 0 < i → i < 4 → lookupLink s ((i, 3), (i - 1, 3)) = some true)

theorem bt4Inv_setLink_true {s : Links} {key : Coord × Coord} (h : BT4Inv s)
    (hkey : key.1 ≠ ((0 : Nat), (3 : Nat)) ∨
      key = ((0, 3), (1, 3)) ∨ key = ((0, 3), (0, 2))) :
    BT4Inv (setLink s key true) := by
  obtain ⟨h1, h2, h3⟩ := h
  refine ⟨?_, ?_, ?_⟩
  · intro q
    rw [lookupLink_setLink]
    by_cases hq : ((0, 3), q) = key
    · subst hq
      rw [if_pos rfl]
      rcases hkey with hk | hk | hk
      · exact absurd rfl hk
      · simp only [Prod.mk.injEq, true_and] at hk
        rw [if_pos (Or.inl hk)]
      · simp only [Prod.mk.injEq, true_and] at hk
        rw [if_pos (Or.inr hk)]
    · rw [if_neg hq]
      exact h1 q
  · intro j hj
    rw [lookupLink_setLink]
    by_cases hq : ((0, j), (0, j + 1)) = key
    · rw [if_pos hq]
    · rw [if_neg hq]
      exact h2 j hj
  · intro i hi1 hi2
    rw [lookupLink_setLink]
    by_cases hq : ((i, 3), (i - 1, 3)) = key
    · rw [if_pos hq]
    · rw [if_neg hq]
      exact h3 i hi1 hi2

theorem bt4Inv_setLink_false {s : Links} {key : Coord × Coord} (h : BT4Inv s)
    (hk1 : key.1 ≠ ((0 : Nat), (3 : Nat)))
    (hk2 : key.1.1 ≠ 0 ∨ key.2.1 ≠ 0)
    (hk3 : key.1.2 ≠ 3 ∨ key.2.2 ≠ 3) :
    BT4Inv (setLink s key false) := by
  obtain ⟨h1, h2, h3⟩ := h
  refine ⟨?_, ?_, ?_⟩
  · intro q
    rw [lookupLink_setLink, if_neg (fun hq => hk1 (by rw [← hq]))]
    exact h1 q
  · intro j hj
    have hne : ((0, j), (0, j + 1)) ≠ key := by
      intro hq
      rcases hk2 with hk | hk
      · exact hk (by rw [← hq])
      · exact hk (by rw [← hq])
    rw [lookupLink_setLink, if_neg hne]
    exact h2 j hj
  · intro i hi1 hi2
    have hne : ((i, 3), (i - 1, 3)) ≠ key := by
      intro hq
      rcases hk3 with hk | hk
      · exact hk (by rw [← hq])
      · exact hk (by rw [← hq])
    rw [lookupLink_setLink, if_neg hne]
    exact h3 i hi1 hi2

theorem bt4Inv_btStep (rnd : Nat → Nat) (p : Coord) (hp1 : p.1 < 4)
    (hp2 : p.2 < 4) (sk : Links × Nat) (h : BT4Inv sk.1) :
    BT4Inv (btStep 4 rnd sk p).1 := by
  obtain ⟨i, j⟩ := p
  obtain ⟨s, k⟩ := sk
  dsimp only at hp1 hp2 h
  unfold btStep
  dsimp only
  by_cases h1 : i = 0 ∧ j = 4 - 1
  · rw [if_pos h1]
    exact h
  · rw [if_neg h1]
    by_cases h2 : i = 0
    · rw [if_pos h2]
      subst h2
      have hj3 : j ≠ 3 := fun hj => h1 ⟨rfl, hj⟩
      show BT4Inv (linkCells (0, j) (0, j + 1) s)
      unfold linkCells
      by_cases hj2 : j = 2
      · subst hj2
        exact bt4Inv_setLink_true (bt4Inv_setLink_true h (Or.inl (by
            intro hq
            simp only [Prod.mk.injEq] at hq
            omega)))
          (Or.inr (Or.inr (by norm_num)))
      · exact bt4Inv_setLink_true (bt4Inv_setLink_true h (Or.inl (by
            intro hq
            simp only [Prod.mk.injEq] at hq
            omega)))
          (Or.inl (by
            intro hq
            simp only [Prod.mk.injEq] at hq
            omega))
    · rw [if_neg h2]
      by_cases h3 : j = 4 - 1
      · rw [if_pos h3]
        have hj : j = 3 := by omega
        subst hj
        show BT4Inv (linkCells (i, 3) (i - 1, 3) s)
        unfold linkCells
        by_cases hi1 : i = 1
        · subst hi1
          exact bt4Inv_setLink_true (bt4Inv_setLink_true h (Or.inl (by
              intro hq
              simp only [Prod.mk.injEq] at hq
              omega)))
            (Or.inr (Or.inl (by norm_num)))
        · exact bt4Inv_setLink_true (bt4Inv_setLink_true h (Or.inl (by
              intro hq
              simp only [Prod.mk.injEq] at hq
              omega)))
            (Or.inl (by
              intro hq
              simp only [Prod.mk.injEq] at hq
              omega))
      · rw [if_neg h3]
        have hi0 : i ≠ 0 := h2
        have hj3 : j ≠ 3 := by omega
        have heast : ∀ s2 : Links, BT4Inv s2 →
            BT4Inv (unlinkCells (i, j) (i, j + 1) s2) := by
          intro s2 h2i
          unfold unlinkCells
          exact bt4Inv_setLink_false (bt4Inv_setLink_false h2i
              (by
                intro hq
                simp only [Prod.mk.injEq] at hq
                omega)
              (Or.inl hi0) (Or.inl hj3))
            (by
              intro hq
              simp only [Prod.mk.injEq] at hq
              omega)
            (Or.inl hi0) (Or.inr hj3)
        have hnorth : ∀ s2 : Links, BT4Inv s2 →
            BT4Inv (unlinkCells (i, j) (i - 1, j) s2) := by
          intro s2 h2i
          unfold unlinkCells
          exact bt4Inv_setLink_false (bt4Inv_setLink_false h2i
              (by
                intro hq
                simp only [Prod.mk.injEq] at hq
                omega)
              (Or.inl hi0) (Or.inl hj3))
            (by
              intro hq
              simp only [Prod.mk.injEq] at hq
              omega)
            (Or.inr hi0) (Or.inl hj3)
        dsimp only
        split_ifs with hr0 hr1 hr2
        · exact hnorth _ (heast _ h)
        · exact hnorth _ h
        · exact heast _ h
        · exact h

theorem bt4Inv_foldl (rnd : Nat → Nat) (l : List Coord)
    (hl : ∀ p ∈ l, p.1 < 4 ∧ p.2 < 4) :
    ∀ sk : Links × Nat, BT4Inv sk.1 →
      BT4Inv (l.foldl (btStep 4 rnd) sk).1 := by
  induction l with
  | nil => intro sk h; exact h
  | cons p rest ih =>
    intro sk h
    simp only [List.foldl_cons]
    obtain ⟨hp1, hp2⟩ := hl p (by simp)
    exact ih (fun q hq => hl q (by simp [hq])) _
      (bt4Inv_btStep rnd p hp1 hp2 sk h)

theorem bt4Inv_initialLinks : BT4Inv (initialLinks 4 4) := by
  refine ⟨?_, ?_, ?_⟩
  · intro q
    rw [lookupLink_initialLinks2]
    by_cases hq : q = (1, 3) ∨ q = (0, 2)
    · rw [if_pos ?_, if_pos hq]
      rcases hq with rfl | rfl
      · decide
      · decide
    · rw [if_neg ?_, if_neg hq]
      obtain ⟨q1, q2⟩ := q
      intro hadj
      unfold Adjacent at hadj
      dsimp only at hadj
      simp only [Prod.mk.injEq, not_or] at hq
      omega
  · intro j hj
    rw [lookupLink_initialLinks2, if_pos ?_]
    unfold Adjacent
    dsimp only
    omega
  · intro i hi1 hi2
    rw [lookupLink_initialLinks2, if_pos ?_]
    unfold Adjacent
    dsimp only
    omega

/-- Claim C7 amended: after `binary_tree` on a 4 × 4 grid, for every stream of
random draws: the top-right cell (0,3) has exactly two True entries in its
link table — to its south neighbour (1,3) and its west neighbour (0,2), which
always keep the links carved at construction — every other top-row cell is
linked to its east neighbour, and every other right-column cell is linked to
its north neighbour (these boundary cells may carry further True links, since
`binary_tree` starts from the fully linked grid and never prunes south or
west links). -/
theorem binary_tree_4x4_boundary (rnd : Nat → Nat) :
    (∀ q : Coord, lookupLink (binaryTree 4 4 rnd) ((0, 3), q) =
        if q = (1, 3) ∨ q = (0, 2) then some true else none) ∧
      (∀ j : Nat, j < 3 →
        lookupLink (binaryTree 4 4 rnd) ((0, j), (0, j + 1)) = some true) ∧
      ∀ i : Nat, 0 < i → i < 4 →
        lookupLink (binaryTree 4 4 rnd) ((i, 3), (i - 1, 3)) = some true :=
  bt4Inv_foldl rnd (btCells 4 4) (by decide) (initialLinks 4 4, 0)
    bt4Inv_initialLinks

/-- The neighbour in drawn direction `r` (`random.randint(1, 4)` is modelled
as `rnd k % 4`: 0 ↦ north, 1 ↦ south, 2 ↦ east, 3 ↦ west, matching the
source's `r == 1 .. r == 4` branches). -/
def dirNbr (rows cols : Nat) (r : Nat) (p : Coord) : Option Coord :=
  if r = 0 then north p
  else if r = 1 then south rows p
  else if r = 2 then east cols p
  else west p

/-- The inner `while(again)` loop of `aldous_broder`: draw directions until
one whose neighbour exists comes up; link to that neighbour when it is not in
`linked_cells` yet; move there.  On a cell with no neighbour at all every
draw retries, so the loop never ends and the fuel runs out (`none`). -/
def abWalk (rows cols : Nat) (rnd : Nat → Nat) :
    Nat → Links → List Coord → Coord → Nat → Option (Links × Coord × Nat)
  | 0, _, _, _, _ => none
  | fuel + 1, s, vis, cell, k =>
    let r := rnd k % 4
    match dirNbr rows cols r cell with
    | some n =>
      some (if n ∈ vis then s else linkCells cell n s, n, k + 1)
    | none => abWalk rows cols rnd fuel s vis cell (k + 1)

/-- The outer `while` loop of `aldous_broder`, carrying the link state, the
keys of `linked_cells` in insertion order, the current cell, the draw index
and `iteration_count` (incremented before the size check, as in the source). -/
def abLoop (rows cols : Nat) (rnd : Nat → Nat) :
    Nat → Links → List Coord → Coord → Nat → Nat → Option (Links × Nat)
  | 0, _, _, _, _, _ => none
  | fuel + 1, s, vis, nextCell, k, cnt =>
    if vis.length ≤ rows * cols then
      if vis.length = rows * cols then some (s, cnt + 1)
      else
        let vis2 := if nextCell ∈ vis then vis else vis ++ [nextCell]
        match abWalk rows cols rnd (fuel + 1) s vis2 nextCell k with
        | none => none
        | some (s2, n2, k2) => abLoop rows cols rnd fuel s2 vis2 n2 k2 (cnt + 1)
    else some (s, cnt)

/-- `aldous_broder(grid)`: `unlink_all`, a random start cell (two `randrange`
draws), then the walk until `linked_cells` holds every cell. -/
def aldousBroder (rows cols : Nat) (rnd : Nat → Nat) (fuel : Nat) :
    Option (Links × Nat) :=
  let s := unlinkAll rows cols (initialLinks rows cols)
  let r1 := rnd 0 % rows
  let r2 := rnd 1 % cols
  abLoop rows cols rnd fuel s [] (r1, r2) 2 0

/-- The `while(redo)` draw loop of `wilson`'s walk: draw directions, counting
every draw in `random_choices`, until one whose neighbour exists comes up. -/
def wilsonDraw (rows cols : Nat) (rnd : Nat → Nat) :
    Nat → Coord → Nat → Nat → Option (Coord × Nat × Nat)
  | 0, _, _, _ => none
  | fuel + 1, temp, k, rc =>
    let r := rnd k % 4
    match dirNbr rows cols r temp with
    | some n => some (n, k + 1, rc + 1)
    | none => wilsonDraw rows cols rnd fuel temp (k + 1) (rc + 1)

/-- The `while q == False` walk of `wilson`: append a drawn neighbour of the
head `path[i]`, erase the loop back to the first occurrence of the new head
(the source's `del` loop keeps `path[0..t]` and anything after the old head;
`loops_removed` increments on every step, a quirk of the source, since
`t == i` always matches), and stop once the head is a visited cell. -/
def wilsonWalk (rows cols : Nat) (rnd : Nat → Nat) (visited : List Coord) :
    Nat → List Coord → Nat → Nat → Nat → Nat →
      Option (List Coord × Nat × Nat × Nat × Nat)
  | 0, _, _, _, _, _ => none
  | fuel + 1, path, i, k, rc, lr =>
    let i2 := i + 1
    match wilsonDraw rows cols rnd (fuel + 1) (path.getD (i2 - 1) (0, 0)) k rc with
    | none => none
    | some (n, k2, rc2) =>
      let path2 := path ++ [n]
      match (List.range path2.length).find? (fun t =>
          path2.getD t (0, 0) == path2.getD i2 (0, 0)) with
      | none => none
      | some t =>
        let path3 := path2.take (t + 1) ++ path2.drop (i2 + 1)
        let lr2 := lr + 1
        if path3.getD t (0, 0) ∈ visited then some (path3, t, k2, rc2, lr2)
        else wilsonWalk rows cols rnd visited fuel path3 t k2 rc2 lr2

/-- The segment-carving loop of `wilson`:
`path[t].link(path[t+1])` for `t = 0 .. len(path) - 2`. -/
def linkPath : List Coord → Links → Links
  | a :: b :: rest, s => linkPath (b :: rest) (linkCells a b s)
  | _, s => s

/-- The outer loop of `wilson`: pick a random unvisited start
(`random.choice`, modelled as an index draw), walk until hitting a visited
cell, then carve the path and move its cells (all but the visited endpoint)
from `unvisited` to `visited`.  `list.remove` removes the first occurrence;
`unvisited` never holds duplicates, so a filter is equivalent. -/
def wilsonLoop (rows cols : Nat) (rnd : Nat → Nat) :
    Nat → Links → List Coord → List Coord → Nat → Nat → Nat →
      Option (Links × Nat × Nat)
  | 0, _, _, _, _, _, _ => none
  | fuel + 1, s, unvisited, visited, k, rc, lr =>
    if visited.length ≤ rows * cols then
      if visited.length = rows * cols then some (s, rc, lr)
      else
        let start := unvisited.getD (rnd k % unvisited.length) (0, 0)
        let k2 := k + 1
        match wilsonWalk rows cols rnd visited (fuel + 1) [start] 0 k2 rc lr with
        | none => none
        | some (path, _i, k3, rc3, lr3) =>
          let newly := path.dropLast
          let visited2 := visited ++ newly
          let unvisited2 := unvisited.filter (fun c => !(newly.contains c))
          let s2 := linkPath path s
          wilsonLoop rows cols rnd fuel s2 unvisited2 visited2 k3 rc3 lr3
    else some (s, rc, lr)

/-- `wilson(grid)`: `unlink_all`, every cell unvisited, one random cell moved
to `visited` (one `random.choice` draw), then the loop; on success it returns
the link state with the final `random_choices` and `loops_removed`. -/
def wilson (rows cols : Nat) (rnd : Nat → Nat) (fuel : Nat) :
    Option (Links × Nat × Nat) :=
  let s := unlinkAll rows cols (initialLinks rows cols)
  let unvisited := cellList rows cols
  let a := unvisited.getD (rnd 0 % unvisited.length) (0, 0)
  let unvisited2 := unvisited.filter (fun c => !(c == a))
  wilsonLoop rows cols rnd fuel s unvisited2 [a] 1 0 0

theorem abWalk_unit_none (rnd : Nat → Nat) :
    ∀ (fuel : Nat) (s : Links) (vis : List Coord) (k : Nat),
      abWalk 1 1 rnd fuel s vis (0, 0) k = none := by
  intro fuel
  induction fuel with
  | zero => intro s vis k; rfl
  | succ n ih =>
    intro s vis k
    have hd : dirNbr 1 1 (rnd k % 4) (0, 0) = none := by
      simp [dirNbr, north, south, east, west]
    simp only [abWalk, hd]
    exact ih s vis (k + 1)

theorem abLoop_unit_none (rnd : Nat → Nat) :
    ∀ (fuel : Nat) (s : Links) (k cnt : Nat),
      abLoop 1 1 rnd fuel s [] (0, 0) k cnt = none := by
  intro fuel s k cnt
  cases fuel with
  | zero => rfl
  | succ n =>
    simp only [abLoop, abWalk_unit_none]
    norm_num

/-- Claim C8 is a code bug: on a 1 × 1 grid `wilson` does terminate at once —
with `random_choices = 0` and `loops_removed = 0`, the single cell being
visited before the loop starts — but `aldous_broder` never terminates: the
single cell has no neighbour in any direction, so its inner direction-drawing
loop retries forever, whatever the random stream and however much fuel the
model grants. -/
theorem one_by_one_termination :
    (∀ (rnd : Nat → Nat) (fuel : Nat), aldousBroder 1 1 rnd fuel = none) ∧
      ∀ rnd : Nat → Nat, wilson 1 1 rnd 1 = some ([], 0, 0) := by
  constructor
  · intro rnd fuel
    show abLoop 1 1 rnd fuel _ [] (rnd 0 % 1, rnd 1 % 1) 2 0 = none
    rw [Nat.mod_one, Nat.mod_one]
    exact abLoop_unit_none rnd fuel _ 2 0
  · intro rnd
    show wilsonLoop 1 1 rnd 1 _ _ [_] 1 0 0 = _
    rw [show (cellList 1 1).length = 1 from rfl, Nat.mod_one]
    rfl

/-- One iteration of `recursive_backtracker`'s occupancy loop
`for item in visited`: the `continue`-laden if-chain of the source — note
that when a direction's neighbour is absent (or matches `item`) the chain
short-circuits, so later directions are never examined for that `item`. -/
def rbFlagsStep (rows cols : Nat) (c : Coord)
    (f : Bool × Bool × Bool × Bool) (item : Coord) :
    Bool × Bool × Bool × Bool :=
  let (N, S, E, W) := f
  if north c = some item ∨ north c = none then (true, S, E, W)
  else if south rows c = some item ∨ south rows c = none then (N, true, E, W)
  else if east cols c = some item ∨ east cols c = none then (N, S, true, W)
  else if west c = some item ∨ west c = none then (N, S, E, true)
  else f

/-- The `N, S, E, W` occupancy flags `recursive_backtracker` computes for the
top of the stack by folding the visited list. -/
def rbFlags (rows cols : Nat) (vis : List Coord) (c : Coord) :
    Bool × Bool × Bool × Bool :=
  vis.foldl (rbFlagsStep rows cols c) (false, false, false, false)

/-- The main loop of `recursive_backtracker`.  The index `i` always equals
`len(stack) - 1` at the loop head, so the current cell is the stack's last
element; `stack.pop(i)` drops it, and the subsequent `print(stack[i])` on an
empty stack would raise `IndexError` (modelled as `none`, like exhausted
fuel).  When all four flags are set the stack is popped; otherwise one draw
`r = randint(1, 4)` (modelled `rnd k % 4`, 0 ↦ north .. 3 ↦ west) selects a
branch, which pushes, marks visited and links only when that direction's
neighbour exists and its flag is unset — and does nothing at all otherwise.
`visited` is a plain list: the buggy flag computation can push a cell that is
already in it, appending a duplicate. -/
def rbLoop (rows cols : Nat) (rnd : Nat → Nat) :
    Nat → Links → List Coord → List Coord → Nat → Option Links
  | 0, _, _, _, _ => none
  | fuel + 1, s, stack, vis, k =>
    if vis.length ≤ rows * cols then
      if vis.length = rows * cols then some s
      else
        match stack.getLast? with
        | none => none
        | some c =>
          let (N, S, E, W) := rbFlags rows cols vis c
          if N && S && E && W then
            let stack2 := stack.dropLast
            match stack2.getLast? with
            | none => none
            | some _ => rbLoop rows cols rnd fuel s stack2 vis k
          else
            let r := rnd k % 4
            let k2 := k + 1
            if r = 0 then
              match north c, N with
              | some n, false =>
                rbLoop rows cols rnd fuel (linkCells c n s) (stack ++ [n])
                  (vis ++ [n]) k2
              | _, _ => rbLoop rows cols rnd fuel s stack vis k2
            else if r = 1 then
              match south rows c, S with
              | some n, false =>
                rbLoop rows cols rnd fuel (linkCells c n s) (stack ++ [n])
                  (vis ++ [n]) k2
              | _, _ => rbLoop rows cols rnd fuel s stack vis k2
            else if r = 2 then
              match east cols c, E with
              | some n, false =>
                rbLoop rows cols rnd fuel (linkCells c n s) (stack ++ [n])
                  (vis ++ [n]) k2
              | _, _ => rbLoop rows cols rnd fuel s stack vis k2
            else
              match west c, W with
              | some n, false =>
                rbLoop rows cols rnd fuel (linkCells c n s) (stack ++ [n])
                  (vis ++ [n]) k2
              | _, _ => rbLoop rows cols rnd fuel s stack vis k2
    else some s

/-- `recursive_backtracker(grid, start_cell)` with an explicit start cell:
push and mark the start, `unlink_all`, then loop. -/
def recursiveBacktracker (rows cols : Nat) (rnd : Nat → Nat) (start : Coord)
    (fuel : Nat) : Option Links :=
  let s := unlinkAll rows cols (initialLinks rows cols)
  rbLoop rows cols rnd fuel s [start] [start] 0

/-- `Cell.neighbors()`: the geographic neighbours that exist, in the order
north, south, east, west. -/
def nbrList (rows cols : Nat) (p : Coord) : List Coord :=
  [north p, south rows p, east cols p, west p].filterMap id

/-- The neighbours of `p` reachable through one carved (True) link — the edge
relation of the specification's BFS connectivity check. -/
def linkedNbrs (rows cols : Nat) (s : Links) (p : Coord) : List Coord :=
  (nbrList rows cols p).filter (fun q => lookupLink s (p, q) == some true)

/-- One BFS expansion: append every newly reachable neighbour. -/
def reachStep (rows cols : Nat) (s : Links) (acc : List Coord) : List Coord :=
  acc ++ ((acc.flatMap (linkedNbrs rows cols s)).filter
    (fun q => !(acc.contains q)))

/-- The cells reachable from `src` via True links: `size()` BFS expansions,
enough to saturate on any `rows × cols` grid. -/
def reachable (rows cols : Nat) (s : Links) (src : Coord) : List Coord :=
  (fun acc => reachStep rows cols s acc)^[rows * cols] [src]

/-- Claim C1 is a code bug, exhibited on `recursive_backtracker`: on a 2 × 2
grid started at (1,0) with direction draws north, south, east (the stream
`fun k => k` gives r = 1, 2, 3), the run terminates normally — the defective
occupancy loop reports the already-visited south neighbour of (0,0) as free,
so (1,0) is pushed onto `visited` a second time and `len(visited)` reaches
`size()` early — yet cell (0,1) is never visited: the finished grid has
(1,0), (0,0), (1,1) mutually linked and (0,1) linked to nothing, so not every
cell is reachable from every other. -/
theorem recursive_backtracker_disconnects :
    (recursiveBacktracker 2 2 (fun k => k) (1, 0) 8).map
        (fun s => reachable 2 2 s (1, 0)) = some [(1, 0), (0, 0), (1, 1)] ∧
      (recursiveBacktracker 2 2 (fun k => k) (1, 0) 8).map
        (fun s => decide ((0, 1) ∈ reachable 2 2 s (1, 0))) = some false := by
  decide
